import Mathlib

/-!
Shallow embedding of `scripts/local-wikidata-loader.py` (dot-do/graphdb).

The script accumulates subject-predicate-object triples into fixed-size
chunks, serializes each chunk as a JSON record, uploads it, and finally
writes a manifest with run totals.  Pure helpers become Lean functions;
the mutable accumulator state of `load_subset` becomes explicit state
passing over `AccState`; the external upload sink becomes a boolean
oracle `up : Nat → Bool` (whether the upload of chunk index `i`
succeeds) together with a ghost record of the emitted chunks.
Machine integers in the source are Python arbitrary-precision ints,
so `Nat` models them directly.
-/

namespace GraphDB

/-- Source line 35: the Crockford base-32 alphabet used for ULIDs. -/
def ENCODING : String := "0123456789ABCDEFGHJKMNPQRSTVWXYZ"

/-- Source line 32: flush threshold for the accumulator. -/
def CHUNK_SIZE : Nat := 250000

/-- Source line 31: namespace IRI prefix for the dataset. -/
def NAMESPACE : String := "https://wikidata.org/"

/-- Indexing `ENCODING[i]`; the source only ever indexes with `i < 32`,
so the default character of `getD` is never reached. -/
def encChar (n : Nat) : Char := ENCODING.toList.getD n '0'

/-- Source lines 42-44: the loop `ulid = ENCODING[now % 32] + ulid; now //= 32`
run `k` times, prepending base-32 digits of `now` onto `acc`. -/
def ulidLoop : Nat → Nat → List Char → List Char
  | 0, _, acc => acc
  | k + 1, now, acc => ulidLoop k (now / 32) (encChar (now % 32) :: acc)

/-- Source lines 39-47: `generate_ulid`.  `now` is the millisecond clock
value `int(time.time() * 1000)` and `rand` models the 16 draws of
`random.randint(0, 31)`.  Ten time digits, then sixteen random digits,
then `ulid[:26]`. -/
def generate_ulid (now : Nat) (rand : Fin 16 → Fin 32) : String :=
  String.mk ((ulidLoop 10 now [] ++ (List.finRange 16).map (fun i => encChar (rand i).val)).take 26)

/-- Big-endian base-32 digits of `n`, `k` of them (proof-side closed form
of `ulidLoop`). -/
def bigDigits : Nat → Nat → List Char
  | 0, _ => []
  | k + 1, n => bigDigits k (n / 32) ++ [encChar (n % 32)]

/-- Fuel-driven decimal digit list (big-endian), the digits of Python `str(n)`. -/
def decReprAux : Nat → Nat → List Char
  | 0, _ => []
  | fuel + 1, n =>
    if n < 10 then [Nat.digitChar n]
    else decReprAux fuel (n / 10) ++ [Nat.digitChar (n % 10)]

/-- Decimal representation of `n`, as produced by Python `str(n)`. -/
def decRepr (n : Nat) : List Char := decReprAux (n + 1) n

/-- Source line 97: the Python format `f"{i:06d}"` — the decimal digits of
`i` left-padded with `'0'` to a minimum width of six. -/
def pad6 (n : Nat) : String :=
  String.mk (List.replicate (6 - (decRepr n).length) '0' ++ decRepr n)

/-- Source lines 119-125 and 137-143: the tagged object value `{"t": tag, "v": value}`.
Tag 10 is an entity reference, tag 5 a string literal. -/
structure TypedValue where
  t : Nat
  v : String
deriving DecidableEq

/-- Source lines 119-125: one triple record as appended to the buffer. -/
structure Triple where
  s : String
  p : String
  o : TypedValue
  ts : Nat
  tx : String
deriving DecidableEq

/-- The JSON values the script manufactures (the image of Python dicts,
lists, strings and non-negative ints under `json.dumps`). -/
inductive Json where
  | num : Nat → Json
  | str : String → Json
  | arr : List Json → Json
  | obj : List (String × Json) → Json

/-- JSON form of a `TypedValue`: the dict `{"t": ..., "v": ...}`. -/
def typedValueJson (tv : TypedValue) : Json :=
  .obj [("t", .num tv.t), ("v", .str tv.v)]

/-- JSON form of a `Triple`: the dict built at source lines 119-125. -/
def tripleJson (tr : Triple) : Json :=
  .obj [("s", .str tr.s), ("p", .str tr.p), ("o", typedValueJson tr.o),
        ("ts", .num tr.ts), ("tx", .str tr.tx)]

/-- Source lines 49-56: `encode_graphcol` builds the payload record
`{"version": 1, "namespace": ns, "triples": [...]}`.  The
`json.dumps(...).encode()` step is modelled by `render` below; this
definition is the dict it serializes. -/
def encode_graphcol (triples : List Triple) (ns : String) : Json :=
  .obj [("version", .num 1), ("namespace", .str ns),
        ("triples", .arr (triples.map tripleJson))]

/-- JSON string escaping for the two characters Python's `json.dumps`
escapes in the data this script produces (quote and backslash); control
and non-ASCII escapes never arise from the IRIs and codes built here. -/
def escapeJsonChar (c : Char) : List Char :=
  if c = '"' then ['\\', '"']
  else if c = '\\' then ['\\', '\\']
  else [c]

/-- Render a JSON string literal with surrounding quotes. -/
def renderString (s : String) : String :=
  String.mk ('"' :: (s.toList.map escapeJsonChar).flatten ++ ['"'])

mutual

/-- The `json.dumps` serialization (default separators) of a `Json` value;
`render (encode_graphcol ts ns)` models the bytes `encode_graphcol` returns. -/
def render : Json → String
  | .num n => String.mk (decRepr n)
  | .str s => renderString s
  | .arr js => "[" ++ renderArr js ++ "]"
  | .obj fs => "\x7b" ++ renderObj fs ++ "\x7d"

/-- Comma-separated rendering of a JSON array body. -/
def renderArr : List Json → String
  | [] => ""
  | [j] => render j
  | j :: js => render j ++ ", " ++ renderArr js

/-- Comma-separated rendering of a JSON object body. -/
def renderObj : List (String × Json) → String
  | [] => ""
  | [(k, v)] => renderString k ++ ": " ++ render v
  | (k, v) :: fs => renderString k ++ ": " ++ render v ++ ", " ++ renderObj fs

end

/-- Field lookup in a JSON object (first binding wins, as in a Python dict
serialized with distinct keys). -/
def jsonField (j : Json) (key : String) : Option Json :=
  match j with
  | .obj fields => fields.lookup key
  | _ => none

/-- Modelled from the spec: the repository contains no decoder (§4.2 notes
decoding is out of scope but the format must be reversible).  Inverse of
`typedValueJson`; unknown tags round-trip opaquely per §3. -/
def decodeTypedValue : Json → Option TypedValue
  | .obj [("t", .num t), ("v", .str v)] => some ⟨t, v⟩
  | _ => none

/-- Modelled from the spec: inverse of `tripleJson`, recovering the five
wire-level fields of §6. -/
def decodeTriple : Json → Option Triple
  | .obj [("s", .str s), ("p", .str p), ("o", o), ("ts", .num ts), ("tx", .str tx)] =>
    (decodeTypedValue o).map fun tv => ⟨s, p, tv, ts, tx⟩
  | _ => none

/-- Modelled from the spec: decoder for the chunk payload record
`\x7bversion, namespace, triples\x7d` of §6, inverse to `encode_graphcol`. -/
def decode_graphcol : Json → Option (Nat × String × List Triple)
  | .obj [("version", .num v), ("namespace", .str ns), ("triples", .arr js)] =>
    (js.mapM decodeTriple).map fun trs => (v, ns, trs)
  | _ => none

/-- Ghost record of one emitted chunk: its sequence index, upload path,
buffered triples, encoded byte length, and whether the upload sink
accepted it (source lines 97-107). -/
structure Chunk where
  index : Nat
  path : String
  triples : List Triple
  size : Nat
  uploaded : Bool
deriving DecidableEq

/-- The mutable state of `load_subset` (source lines 87-90): the pending
buffer `triples`, the counters `chunk_index`, `total_triples`,
`total_bytes`, plus the ghost list of chunks flushed so far. -/
structure AccState where
  triples : List Triple
  chunk_index : Nat
  total_triples : Nat
  total_bytes : Nat
  chunks : List Chunk
deriving DecidableEq

/-- Source lines 87-90: all counters zero, buffer empty. -/
def initState : AccState := ⟨[], 0, 0, 0, []⟩

/-- Source line 98: the chunk upload path
`f"datasets/wikidata/\x7bsubset_name\x7d/chunks/\x7bchunk_id\x7d.graphcol"`. -/
def chunk_path (subset_name : String) (chunk_id : String) : String :=
  "datasets/wikidata/" ++ subset_name ++ "/chunks/" ++ chunk_id ++ ".graphcol"

/-- Source lines 92-110: `flush_chunk`.  No-op on an empty buffer;
otherwise encode the buffer, account its byte length, record the chunk
(with the upload oracle's verdict for this index — the source ignores
the upload outcome entirely), bump the index, clear the buffer. -/
def flush_chunk (subset_name : String) (up : Nat → Bool) (st : AccState) : AccState :=
  if st.triples = [] then st
  else
    let chunk_id := "chunk_" ++ pad6 st.chunk_index
    let encoded := render (encode_graphcol st.triples NAMESPACE)
    { triples := []
      chunk_index := st.chunk_index + 1
      total_triples := st.total_triples
      total_bytes := st.total_bytes + encoded.length
      chunks := st.chunks ++ [{ index := st.chunk_index
                                path := chunk_path subset_name chunk_id
                                triples := st.triples
                                size := encoded.length
                                uploaded := up st.chunk_index }] }

/-- One iteration of the ingestion loops (source lines 119-129 and
137-147): append the triple, count it, and flush when the buffer has
reached `C` (the source's `CHUNK_SIZE`). -/
def add_triple (C : Nat) (subset_name : String) (up : Nat → Bool)
    (st : AccState) (tr : Triple) : AccState :=
  let st' := { st with triples := st.triples ++ [tr],
                       total_triples := st.total_triples + 1 }
  if C ≤ st'.triples.length then flush_chunk subset_name up st' else st'

/-- The whole accumulator run over an input triple sequence: the two
ingestion loops fused into one fold (both loops perform the identical
append-count-flush step), followed by the final flush at source line 150. -/
def run_accumulator (C : Nat) (subset_name : String) (up : Nat → Bool)
    (trs : List Triple) : AccState :=
  flush_chunk subset_name up (trs.foldl (add_triple C subset_name up) initState)

/-- The `stats` sub-record of the manifest (source lines 157-161). -/
structure Stats where
  totalTriples : Nat
  totalChunks : Nat
  totalSizeBytes : Nat
deriving DecidableEq

/-- Source lines 153-163: the manifest record.  The Python key
`namespace` is a Lean keyword and is rendered here as `nspace`. -/
structure Manifest where
  version : Nat
  nspace : String
  dataset : String
  stats : Stats
  createdAt : String
deriving DecidableEq

/-- An untyped source value: the third-party dataset yields either a
numeric id (Python `int`) or an already-formed string for each of the
subject, relation and object positions. -/
inductive SOVal where
  | num : Nat → SOVal
  | str : String → SOVal
deriving DecidableEq

/-- Source lines 115-116: `f"https://wikidata.org/entity/Q\x7bs\x7d"` when the
value is an int, otherwise the value itself. -/
def mkEntity : SOVal → String
  | .num n => "https://wikidata.org/entity/Q" ++ String.mk (decRepr n)
  | .str s => s

/-- Source line 117: `f"P\x7br\x7d"` when the relation is an int, otherwise
the value itself. -/
def mkPred : SOVal → String
  | .num n => "P" ++ String.mk (decRepr n)
  | .str s => s

/-- Source lines 113-126: the triple built for one edge `(s, r, o)` —
object tagged 10 (entity reference), the run's timestamp and tx id. -/
def edgeTriple (ts : Nat) (tx_id : String) (e : SOVal × SOVal × SOVal) : Triple :=
  { s := mkEntity e.1, p := mkPred e.2.1, o := ⟨10, mkEntity e.2.2⟩,
    ts := ts, tx := tx_id }

/-- Source lines 135-144: the triple built for one `(entity, label)` pair —
predicate `"label"`, object tagged 5 (string), same timestamp and tx id. -/
def labelTriple (ts : Nat) (tx_id : String) (pr : SOVal × String) : Triple :=
  { s := mkEntity pr.1, p := "label", o := ⟨5, pr.2⟩, ts := ts, tx := tx_id }

/-- Result of one dataset run: the final accumulator state and the
manifest uploaded at source lines 153-167. -/
structure RunResult where
  state : AccState
  manifest : Manifest
deriving DecidableEq

/-- Source lines 67-175: `load_subset`.  The external collaborators are
parameters: `now`/`rand` feed `generate_ulid`, `ts` is the second clock
read at line 85, `createdAt` the `strftime` result at line 162, `edges`
and `labels` the third-party streams, and `up` the upload sink. -/
def load_subset (C : Nat) (subset_name : String) (up : Nat → Bool)
    (now : Nat) (rand : Fin 16 → Fin 32) (ts : Nat) (createdAt : String)
    (edges : List (SOVal × SOVal × SOVal)) (labels : List (SOVal × String)) :
    RunResult :=
  let tx_id := generate_ulid now rand
  let trs := edges.map (edgeTriple ts tx_id) ++ labels.map (labelTriple ts tx_id)
  let st := run_accumulator C subset_name up trs
  { state := st
    manifest := { version := 1
                  nspace := NAMESPACE
                  dataset := "wikidata/" ++ subset_name
                  stats := { totalTriples := st.total_triples
                             totalChunks := st.chunk_index
                             totalSizeBytes := st.total_bytes }
                  createdAt := createdAt } }

/-- The per-dataset figures `load_subset` returns at source line 175. -/
structure DatasetStats where
  triples : Nat
  chunks : Nat
  bytes : Nat
deriving DecidableEq

/-- Source line 183: the fixed subset list. -/
def SUBSETS : List String := ["humans", "films", "companies", "countries", "animals"]

/-- Source lines 195-200: the summary loop accumulating the grand total. -/
def addStats (t : DatasetStats) (p : String × DatasetStats) : DatasetStats :=
  { triples := t.triples + p.2.triples
    chunks := t.chunks + p.2.chunks
    bytes := t.bytes + p.2.bytes }

/-- Source lines 185-202: the `all` branch of `main`.  `loadResult s`
models the `try: load_subset(s) except` — `none` when that dataset
raised, `some` with its returned stats otherwise; a raising dataset is
skipped (never inserted into `results`) and the loop continues with the
next subset.  Returns the successful results and the grand total. -/
def main_all (loadResult : String → Option DatasetStats) :
    List (String × DatasetStats) × DatasetStats :=
  let results := SUBSETS.filterMap (fun s => (loadResult s).map (fun st => (s, st)))
  (results, results.foldl addStats ⟨0, 0, 0⟩)

/-! ## Accumulator invariant -/

/-- Loop invariant of the ingestion loops: after feeding the triples
`done` into the accumulator, the buffer holds fewer than `C` triples,
every flushed chunk is exactly full, the flushed chunks followed by the
buffer reproduce `done` in order, counters agree, and chunk metadata
(index, path, size, upload verdict) is as `flush_chunk` wrote it. -/
structure Inv (C : Nat) (name : String) (up : Nat → Bool)
    (done : List Triple) (st : AccState) : Prop where
  buf_lt : st.triples.length < C
  idx : st.chunk_index = st.chunks.length
  total : st.total_triples = done.length
  content : (st.chunks.map Chunk.triples).flatten ++ st.triples = done
  full : ∀ c ∈ st.chunks, c.triples.length = C
  bytes : st.total_bytes = (st.chunks.map Chunk.size).sum
  indices : st.chunks.map Chunk.index = List.range st.chunks.length
  meta : ∀ c ∈ st.chunks,
    c.path = chunk_path name ("chunk_" ++ pad6 c.index) ∧
    c.size = (render (encode_graphcol c.triples NAMESPACE)).length ∧
    c.uploaded = up c.index

theorem inv_init {C : Nat} {name : String} {up : Nat → Bool} (hC : 0 < C) :
    Inv C name up [] initState :=
  { buf_lt := hC
    idx := rfl
    total := rfl
    content := rfl
    full := by simp [initState]
    bytes := rfl
    indices := rfl
    meta := by simp [initState] }

theorem flush_chunk_empty {name : String} {up : Nat → Bool} {st : AccState}
    (h : st.triples = []) : flush_chunk name up st = st := by
  simp [flush_chunk, h]

theorem flush_chunk_nonempty {name : String} {up : Nat → Bool} {st : AccState}
    (h : st.triples ≠ []) :
    flush_chunk name up st =
      { triples := []
        chunk_index := st.chunk_index + 1
        total_triples := st.total_triples
        total_bytes := st.total_bytes + (render (encode_graphcol st.triples NAMESPACE)).length
        chunks := st.chunks ++
          [{ index := st.chunk_index
             path := chunk_path name ("chunk_" ++ pad6 st.chunk_index)
             triples := st.triples
             size := (render (encode_graphcol st.triples NAMESPACE)).length
             uploaded := up st.chunk_index }] } := by
  simp [flush_chunk, h]

theorem add_triple_no_flush {C : Nat} {name : String} {up : Nat → Bool}
    {st : AccState} {tr : Triple} (h : ¬ C ≤ st.triples.length + 1) :
    add_triple C name up st tr =
      { st with triples := st.triples ++ [tr],
                total_triples := st.total_triples + 1 } := by
  simp [add_triple, h]

theorem add_triple_flush {C : Nat} {name : String} {up : Nat → Bool}
    {st : AccState} {tr : Triple} (h : C ≤ st.triples.length + 1) :
    add_triple C name up st tr =
      { triples := []
        chunk_index := st.chunk_index + 1
        total_triples := st.total_triples + 1
        total_bytes := st.total_bytes +
          (render (encode_graphcol (st.triples ++ [tr]) NAMESPACE)).length
        chunks := st.chunks ++
          [{ index := st.chunk_index
             path := chunk_path name ("chunk_" ++ pad6 st.chunk_index)
             triples := st.triples ++ [tr]
             size := (render (encode_graphcol (st.triples ++ [tr]) NAMESPACE)).length
             uploaded := up st.chunk_index }] } := by
  have hcond : C ≤ (st.triples ++ [tr]).length := by simpa using h
  have hne : st.triples ++ [tr] ≠ [] := by simp
  simp [add_triple, hcond, flush_chunk, hne, h]

theorem inv_add {C : Nat} {name : String} {up : Nat → Bool} {done : List Triple}
    {st : AccState} (h : Inv C name up done st) (tr : Triple) :
    Inv C name up (done ++ [tr]) (add_triple C name up st tr) := by
  by_cases hC : C ≤ st.triples.length + 1
  · have hlen : st.triples.length + 1 = C :=
      le_antisymm (Nat.succ_le_of_lt h.buf_lt) hC
    rw [add_triple_flush hC]
    refine
      { buf_lt := by simp only [List.length_nil]; omega
        idx := by simp [h.idx]
        total := by simp [h.total]
        content := ?_
        full := ?_
        bytes := by simp [h.bytes]
        indices := by simp [h.indices, h.idx, List.range_succ]
        meta := ?_ }
    · simp only [List.map_append, List.map_cons, List.map_nil,
        List.flatten_append, List.flatten_cons, List.flatten_nil,
        List.append_nil]
      rw [← List.append_assoc, h.content]
    · intro c hc
      rcases List.mem_append.mp hc with hc | hc
      · exact h.full c hc
      · have : c = _ := List.mem_singleton.mp hc
        subst this
        simpa using hlen
    · intro c hc
      rcases List.mem_append.mp hc with hc | hc
      · exact h.meta c hc
      · have : c = _ := List.mem_singleton.mp hc
        subst this
        exact ⟨rfl, rfl, rfl⟩
  · rw [add_triple_no_flush hC]
    refine
      { buf_lt := by simpa using Nat.lt_of_not_le hC
        idx := h.idx
        total := by simp [h.total]
        content := by rw [← List.append_assoc, h.content]
        full := h.full
        bytes := h.bytes
        indices := h.indices
        meta := h.meta }

theorem inv_foldl {C : Nat} {name : String} {up : Nat → Bool} {done : List Triple}
    {st : AccState} (h : Inv C name up done st) (trs : List Triple) :
    Inv C name up (done ++ trs) (trs.foldl (add_triple C name up) st) := by
  induction trs generalizing done st with
  | nil => simpa using h
  | cons t ts ih =>
    rw [List.append_cons]
    exact ih (inv_add h t)

/-- Post-state characterization of a complete accumulator run (the two
loops plus the final flush): buffer drained, flushed chunks reproduce
the input in order, all chunks but possibly the last exactly full, none
empty, counters and metadata as written by `flush_chunk`. -/
structure RunSpec (C : Nat) (name : String) (up : Nat → Bool)
    (trs : List Triple) (st : AccState) : Prop where
  buf : st.triples = []
  idx : st.chunk_index = st.chunks.length
  total : st.total_triples = trs.length
  content : (st.chunks.map Chunk.triples).flatten = trs
  full_init : ∀ c ∈ st.chunks.dropLast, c.triples.length = C
  nonempty : ∀ c ∈ st.chunks, c.triples ≠ [] ∧ c.triples.length ≤ C
  bytes : st.total_bytes = (st.chunks.map Chunk.size).sum
  indices : st.chunks.map Chunk.index = List.range st.chunks.length
  meta : ∀ c ∈ st.chunks,
    c.path = chunk_path name ("chunk_" ++ pad6 c.index) ∧
    c.size = (render (encode_graphcol c.triples NAMESPACE)).length ∧
    c.uploaded = up c.index

theorem run_accumulator_spec {C : Nat} (name : String) (up : Nat → Bool)
    (trs : List Triple) (hC : 0 < C) :
    RunSpec C name up trs (run_accumulator C name up trs) := by
  have h : Inv C name up trs (trs.foldl (add_triple C name up) initState) := by
    simpa using inv_foldl (inv_init hC) trs
  rw [run_accumulator]
  set st := trs.foldl (add_triple C name up) initState with hst
  by_cases hb : st.triples = []
  · rw [flush_chunk_empty hb]
    refine
      { buf := hb
        idx := h.idx
        total := h.total
        content := ?_
        full_init := ?_
        nonempty := ?_
        bytes := h.bytes
        indices := h.indices
        meta := h.meta }
    · have := h.content
      rwa [hb, List.append_nil] at this
    · intro c hc
      have hsub : st.chunks.dropLast ⊆ st.chunks := by
        rw [List.dropLast_eq_take]
        exact List.take_subset _ _
      exact h.full c (hsub hc)
    · intro c hc
      have hfull := h.full c hc
      constructor
      · intro hnil
        rw [hnil] at hfull
        simp at hfull
        omega
      · exact le_of_eq hfull
  · rw [flush_chunk_nonempty hb]
    refine
      { buf := rfl
        idx := by simp [h.idx]
        total := h.total
        content := ?_
        full_init := ?_
        nonempty := ?_
        bytes := by simp [h.bytes]
        indices := by simp [h.indices, h.idx, List.range_succ]
        meta := ?_ }
    · simp only [List.map_append, List.map_cons, List.map_nil,
        List.flatten_append, List.flatten_cons, List.flatten_nil,
        List.append_nil]
      exact h.content
    · intro c hc
      rw [List.dropLast_concat] at hc
      exact h.full c hc
    · intro c hc
      rcases List.mem_append.mp hc with hc | hc
      · have hfull := h.full c hc
        constructor
        · intro hnil
          rw [hnil] at hfull
          simp at hfull
          omega
        · exact le_of_eq hfull
      · have : c = _ := List.mem_singleton.mp hc
        subst this
        exact ⟨hb, le_of_lt h.buf_lt⟩
    · intro c hc
      rcases List.mem_append.mp hc with hc | hc
      · exact h.meta c hc
      · have : c = _ := List.mem_singleton.mp hc
        subst this
        exact ⟨rfl, rfl, rfl⟩

/-! ## Decimal digits and zero padding -/

theorem decReprAux_length_le :
    ∀ (fuel n k : Nat), 1 ≤ k → n < 10 ^ k → (decReprAux fuel n).length ≤ k := by
  intro fuel
  induction fuel with
  | zero =>
    intro n k _ _
    simp [decReprAux]
  | succ f ih =>
    intro n k h1 h2
    rw [decReprAux]
    by_cases h10 : n < 10
    · simpa [h10] using h1
    · simp only [h10, if_false, List.length_append, List.length_cons, List.length_nil]
      obtain ⟨k', rfl⟩ : ∃ k', k = k' + 1 := ⟨k - 1, by omega⟩
      have hk' : 1 ≤ k' := by
        rcases Nat.eq_zero_or_pos k' with hz | hp
        · subst hz
          rw [pow_one] at h2
          omega
        · exact hp
      have hdiv : n / 10 < 10 ^ k' := by
        rw [pow_succ] at h2
        exact (Nat.div_lt_iff_lt_mul (by norm_num)).mpr h2
      have := ih (n / 10) k' hk' hdiv
      omega

theorem pad6_length {n : Nat} (h : n < 1000000) : (pad6 n).length = 6 := by
  have hle : (decRepr n).length ≤ 6 :=
    decReprAux_length_le (n + 1) n 6 (by norm_num) (by norm_num at h ⊢; omega)
  rw [pad6, String.length_mk, List.length_append, List.length_replicate]
  omega

/-! ## Chunk count arithmetic (claim C1) -/

theorem runspec_chunk_count {C : Nat} {name : String} {up : Nat → Bool}
    {trs : List Triple} {st : AccState} (hC : 0 < C)
    (h : RunSpec C name up trs st) :
    st.chunks.length = (trs.length + C - 1) / C := by
  rcases List.eq_nil_or_concat st.chunks with hnil | ⟨l, a, hcat⟩
  · have htrs : trs = [] := by
      have hc := h.content
      rw [hnil] at hc
      simpa using hc.symm
    rw [hnil, htrs]
    simp only [List.length_nil, Nat.zero_add]
    exact (Nat.div_eq_of_lt (by omega)).symm
  · rw [List.concat_eq_append] at hcat
    have hfull : ∀ c ∈ l, c.triples.length = C := by
      intro c hc
      apply h.full_init
      rw [hcat, List.dropLast_concat]
      exact hc
    have hmem : a ∈ st.chunks := by
      rw [hcat]
      exact List.mem_append_right _ (List.mem_singleton_self a)
    obtain ⟨hane, halen⟩ := h.nonempty a hmem
    have har : 1 ≤ a.triples.length := List.length_pos.mpr hane
    have hlen : trs.length = l.length * C + a.triples.length := by
      have h1 : trs.length = (st.chunks.map Chunk.triples).flatten.length := by
        rw [h.content]
      rw [hcat] at h1
      have h3 : (l.map Chunk.triples).flatten.length = l.length * C := by
        rw [List.length_flatten, List.map_map]
        have hcongr : l.map (List.length ∘ Chunk.triples) = List.replicate l.length C := by
          have heq : l.map (List.length ∘ Chunk.triples) = l.map (fun _ => C) :=
            List.map_congr_left (fun c hc => hfull c hc)
          rw [heq, List.map_const']
        rw [hcongr, List.sum_replicate, smul_eq_mul]
      simp only [List.map_append, List.map_cons, List.map_nil, List.flatten_append,
        List.flatten_cons, List.flatten_nil, List.append_nil, List.length_append] at h1
      omega
    rw [hcat, List.length_append, List.length_cons, List.length_nil, hlen]
    obtain ⟨A, hA⟩ : ∃ A, l.length * C = A := ⟨_, rfl⟩
    obtain ⟨m, hm⟩ : ∃ m, l.length = m := ⟨_, rfl⟩
    have e1 : (m + 1) * C = A + C := by rw [← hA, ← hm]; ring
    have e2 : (m + 1 + 1) * C = A + C + C := by rw [← hA, ← hm]; ring
    rw [hA, hm]
    symm
    apply Nat.div_eq_of_lt_le
    · rw [e1]; omega
    · rw [e2]; omega

/-- A fixed sample triple used to instantiate concrete witness runs. -/
def sampleTriple (n : Nat) : Triple :=
  { s := "https://wikidata.org/entity/Q" ++ String.mk (decRepr n), p := "P1",
    o := ⟨10, "https://wikidata.org/entity/Q42"⟩, ts := 0, tx := "tx" }

/-- C1: for every input triple sequence of length `L` processed by the
accumulator with `CHUNK_SIZE = C > 0`, the number of emitted chunks is
`⌈L / C⌉ = (L + C - 1) / C` (which is `0` when `L = 0`), every chunk
except possibly the last contains exactly `C` triples, no emitted chunk
is empty, and `flush_chunk` is a no-op on an empty buffer (the final
flush covers the trailing partial chunk). -/
theorem C1_chunk_sizes (C : Nat) (name : String) (up : Nat → Bool)
    (trs : List Triple) (hC : 0 < C) :
    (run_accumulator C name up trs).chunks.length = (trs.length + C - 1) / C ∧
    (∀ c ∈ (run_accumulator C name up trs).chunks.dropLast, c.triples.length = C) ∧
    (∀ c ∈ (run_accumulator C name up trs).chunks, c.triples ≠ []) ∧
    (∀ st : AccState, st.triples = [] → flush_chunk name up st = st) := by
  have h := run_accumulator_spec name up trs hC
  exact ⟨runspec_chunk_count hC h, h.full_init, fun c hc => (h.nonempty c hc).1,
    fun st hst => flush_chunk_empty hst⟩

theorem C1_chunk_sizes_witness : 0 < 2 ∧
    ((run_accumulator 2 "humans" (fun _ => true)
        [sampleTriple 0, sampleTriple 1, sampleTriple 2]).chunks.length =
      ([sampleTriple 0, sampleTriple 1, sampleTriple 2].length + 2 - 1) / 2 ∧
    (∀ c ∈ (run_accumulator 2 "humans" (fun _ => true)
        [sampleTriple 0, sampleTriple 1, sampleTriple 2]).chunks.dropLast,
      c.triples.length = 2) ∧
    (∀ c ∈ (run_accumulator 2 "humans" (fun _ => true)
        [sampleTriple 0, sampleTriple 1, sampleTriple 2]).chunks, c.triples ≠ []) ∧
    (∀ st : AccState, st.triples = [] → flush_chunk "humans" (fun _ => true) st = st)) :=
  ⟨by decide,
   C1_chunk_sizes 2 "humans" (fun _ => true)
     [sampleTriple 0, sampleTriple 1, sampleTriple 2] (by decide)⟩

/-- C2: within a single dataset run the chunk sequence indices are the
contiguous integers `0, 1, ...` with no gaps or repeats (the index list
equals `List.range`), each chunk is written at
`datasets/<dataset-name>/chunks/chunk_<NNNNNN>.graphcol` for the
dataset name `wikidata/<subset>`, where `<NNNNNN>` is the index
zero-padded to six digits (`pad6`), and the first chunk is
`chunk_000000`. -/
theorem C2_chunk_paths (C : Nat) (name : String) (up : Nat → Bool)
    (trs : List Triple) (hC : 0 < C) :
    (run_accumulator C name up trs).chunks.map Chunk.index =
      List.range (run_accumulator C name up trs).chunks.length ∧
    (∀ c ∈ (run_accumulator C name up trs).chunks,
      c.path = "datasets/" ++ ("wikidata/" ++ name) ++ "/chunks/" ++
        ("chunk_" ++ pad6 c.index) ++ ".graphcol") ∧
    (∀ n : Nat, n < 1000000 → (pad6 n).length = 6) ∧
    pad6 0 = "000000" := by
  have h := run_accumulator_spec name up trs hC
  refine ⟨h.indices, ?_, fun n hn => pad6_length hn, by decide⟩
  intro c hc
  rw [(h.meta c hc).1, chunk_path]
  rw [show "datasets/wikidata/" = "datasets/" ++ "wikidata/" from rfl]
  simp only [String.append_assoc]

theorem C2_chunk_paths_witness : 0 < 2 ∧
    ((run_accumulator 2 "humans" (fun _ => true)
        [sampleTriple 0, sampleTriple 1, sampleTriple 2]).chunks.map Chunk.index =
      List.range (run_accumulator 2 "humans" (fun _ => true)
        [sampleTriple 0, sampleTriple 1, sampleTriple 2]).chunks.length ∧
    (∀ c ∈ (run_accumulator 2 "humans" (fun _ => true)
        [sampleTriple 0, sampleTriple 1, sampleTriple 2]).chunks,
      c.path = "datasets/" ++ ("wikidata/" ++ "humans") ++ "/chunks/" ++
        ("chunk_" ++ pad6 c.index) ++ ".graphcol") ∧
    (∀ n : Nat, n < 1000000 → (pad6 n).length = 6) ∧
    pad6 0 = "000000") :=
  ⟨by decide,
   C2_chunk_paths 2 "humans" (fun _ => true)
     [sampleTriple 0, sampleTriple 1, sampleTriple 2] (by decide)⟩

/-! ## ULID time-prefix monotonicity (claim C5) -/

theorem ulidLoop_eq (k : Nat) :
    ∀ (n : Nat) (acc : List Char), ulidLoop k n acc = bigDigits k n ++ acc := by
  induction k with
  | zero => intro n acc; rfl
  | succ k ih =>
    intro n acc
    rw [ulidLoop, bigDigits, ih, List.append_assoc, List.singleton_append]

theorem bigDigits_length (k : Nat) : ∀ n : Nat, (bigDigits k n).length = k := by
  induction k with
  | zero => intro n; rfl
  | succ k ih =>
    intro n
    rw [bigDigits, List.length_append, ih, List.length_cons, List.length_nil]

theorem encChar_lt {a b : Nat} (hab : a < b) (hb : b < 32) :
    encChar a < encChar b := by
  have h : ∀ a b : Fin 32, a < b → encChar a.val < encChar b.val := by decide
  exact h ⟨a, lt_trans hab hb⟩ ⟨b, hb⟩ hab

theorem lex_append {r : Char → Char → Prop} :
    ∀ {l₁ l₂ : List Char}, List.Lex r l₁ l₂ → l₁.length = l₂.length →
      ∀ (t₁ t₂ : List Char), List.Lex r (l₁ ++ t₁) (l₂ ++ t₂) := by
  intro l₁ l₂ h
  induction h with
  | nil => intro hlen; simp at hlen
  | cons h ih =>
    intro hlen t₁ t₂
    exact List.Lex.cons (ih (by simpa using hlen) t₁ t₂)
  | rel h =>
    intro _ t₁ t₂
    exact List.Lex.rel h

theorem lex_shared {r : Char → Char → Prop} {a b : Char} (hab : r a b) :
    ∀ (l s₁ s₂ : List Char), List.Lex r (l ++ a :: s₁) (l ++ b :: s₂) := by
  intro l
  induction l with
  | nil => intro s₁ s₂; exact List.Lex.rel hab
  | cons c l ih => intro s₁ s₂; exact List.Lex.cons (ih s₁ s₂)

theorem bigDigits_lex :
    ∀ (k t₁ t₂ : Nat), t₁ < t₂ → t₂ < 32 ^ k →
      List.Lex (· < ·) (bigDigits k t₁) (bigDigits k t₂) := by
  intro k
  induction k with
  | zero =>
    intro t₁ t₂ h12 h2
    rw [pow_zero] at h2
    omega
  | succ k ih =>
    intro t₁ t₂ h12 h2
    rw [bigDigits, bigDigits]
    rcases Nat.lt_or_ge (t₁ / 32) (t₂ / 32) with hq | hq
    · have hq2 : t₂ / 32 < 32 ^ k := by
        rw [pow_succ] at h2
        exact (Nat.div_lt_iff_lt_mul (by norm_num)).mpr h2
      exact lex_append (ih _ _ hq hq2)
        (by rw [bigDigits_length, bigDigits_length]) _ _
    · have hqe : t₁ / 32 = t₂ / 32 :=
        le_antisymm (Nat.div_le_div_right (le_of_lt h12)) hq
      have hr : t₁ % 32 < t₂ % 32 := by
        have e₁ := Nat.div_add_mod t₁ 32
        have e₂ := Nat.div_add_mod t₂ 32
        omega
      rw [hqe]
      exact lex_shared (encChar_lt hr (Nat.mod_lt _ (by norm_num))) _ _ _

theorem generate_ulid_length (now : Nat) (rand : Fin 16 → Fin 32) :
    (generate_ulid now rand).length = 26 := by
  rw [generate_ulid, String.length_mk, List.length_take, ulidLoop_eq,
    List.append_nil, List.length_append, bigDigits_length, List.length_map,
    List.length_finRange]
  omega

/-- Time prefix part of an identifier: the first ten characters, as built
by the loop at source lines 42-44. -/
def ulidTimeDigits (now : Nat) : List Char := ulidLoop 10 now []

/-- C5: two calls of the identifier generator at strictly increasing
millisecond clock values (within the 10-digit base-32 range of the time
prefix) return identifiers that are lexicographically increasing in
generation order, and already their 10-character time prefixes compare
that way; nothing is claimed for equal clock values, where ordering
depends on the random suffix alone. -/
theorem C5_ulid_monotone (t₁ t₂ : Nat) (r₁ r₂ : Fin 16 → Fin 32)
    (h12 : t₁ < t₂) (h2 : t₂ < 32 ^ 10) :
    String.mk (ulidTimeDigits t₁) < String.mk (ulidTimeDigits t₂) ∧
    generate_ulid t₁ r₁ < generate_ulid t₂ r₂ := by
  have hlex : List.Lex (· < ·) (bigDigits 10 t₁) (bigDigits 10 t₂) :=
    bigDigits_lex 10 t₁ t₂ h12 h2
  have hlen : (bigDigits 10 t₁).length = (bigDigits 10 t₂).length := by
    rw [bigDigits_length, bigDigits_length]
  constructor
  · rw [String.lt_iff_toList_lt]
    show ulidTimeDigits t₁ < ulidTimeDigits t₂
    rw [ulidTimeDigits, ulidTimeDigits, ulidLoop_eq, ulidLoop_eq,
      List.append_nil, List.append_nil]
    exact hlex
  · have hlt₁ : (ulidLoop 10 t₁ [] ++
        (List.finRange 16).map (fun i => encChar (r₁ i).val)).length ≤ 26 := by
      rw [List.length_append, ulidLoop_eq, List.append_nil, bigDigits_length,
        List.length_map, List.length_finRange]
    have hlt₂ : (ulidLoop 10 t₂ [] ++
        (List.finRange 16).map (fun i => encChar (r₂ i).val)).length ≤ 26 := by
      rw [List.length_append, ulidLoop_eq, List.append_nil, bigDigits_length,
        List.length_map, List.length_finRange]
    have hl : ((ulidLoop 10 t₁ [] ++
          (List.finRange 16).map (fun i => encChar (r₁ i).val)).take 26 : List Char) <
        (ulidLoop 10 t₂ [] ++
          (List.finRange 16).map (fun i => encChar (r₂ i).val)).take 26 := by
      rw [List.take_of_length_le hlt₁, List.take_of_length_le hlt₂,
        ulidLoop_eq, ulidLoop_eq, List.append_nil, List.append_nil]
      exact lex_append hlex hlen _ _
    rw [String.lt_iff_toList_lt]
    exact hl

theorem C5_ulid_monotone_witness : (0 < 1700000000000 ∧ 1700000000000 < 32 ^ 10) ∧
    (String.mk (ulidTimeDigits 0) < String.mk (ulidTimeDigits 1700000000000) ∧
     generate_ulid 0 (fun _ => 31) < generate_ulid 1700000000000 (fun _ => 0)) :=
  ⟨⟨by decide, by decide⟩,
   C5_ulid_monotone 0 1700000000000 (fun _ => 31) (fun _ => 0) (by decide) (by decide)⟩

/-! ## Encoder round trip and payload shape (claims C6, C7) -/

theorem decodeTriple_tripleJson (tr : Triple) :
    decodeTriple (tripleJson tr) = some tr := by
  rfl

theorem mapM_decodeTriple (trs : List Triple) :
    (trs.map tripleJson).mapM decodeTriple = some trs := by
  induction trs with
  | nil => rfl
  | cons t ts ih =>
    rw [List.map_cons, List.mapM_cons, decodeTriple_tripleJson, ih]
    rfl

/-- The Q42 entity-reference triple named by the spec's Scenario D. -/
def q42Triple : Triple :=
  { s := "https://wikidata.org/entity/Q1", p := "P1",
    o := ⟨10, "https://wikidata.org/entity/Q42"⟩, ts := 0, tx := "tx" }

/-- C6: decoding an encoded chunk payload yields the triple sequence
passed to the encoder, identical field for field — in particular for
the two produced tags `5` (string) and `10` (entity reference), whose
`TypedValue`s round-trip unchanged, and specifically for an object
value with tag `10` and IRI `https://wikidata.org/entity/Q42`
(Scenario D).  The decoder is modelled from the spec, no decoder
existing in the repository. -/
theorem C6_round_trip :
    (∀ (trs : List Triple) (ns : String),
      (∀ tr ∈ trs, tr.o.t = 5 ∨ tr.o.t = 10) →
      decode_graphcol (encode_graphcol trs ns) = some (1, ns, trs)) ∧
    decode_graphcol (encode_graphcol [q42Triple] NAMESPACE) =
      some (1, NAMESPACE, [q42Triple]) := by
  constructor
  · intro trs ns _
    rw [encode_graphcol, decode_graphcol, mapM_decodeTriple]
    rfl
  · rfl

theorem C6_round_trip_witness :
    (∀ tr ∈ [q42Triple], tr.o.t = 5 ∨ tr.o.t = 10) ∧
    decode_graphcol (encode_graphcol [q42Triple] "https://wikidata.org/") =
      some (1, "https://wikidata.org/", [q42Triple]) :=
  ⟨by decide, C6_round_trip.1 [q42Triple] "https://wikidata.org/" (by decide)⟩

/-- C7: for every triple list and namespace the encoder's payload embeds
the format `version` field with value `1`, the given namespace, and the
triples verbatim (the `triples` field is the image of the input under
`tripleJson`, which is injective, so the input is recoverable
field-for-field); the serialization is deterministic — equal inputs
yield identical rendered bytes — and the encoder is a pure function of
its input (the model has no mutation). -/
theorem C7_payload_shape (trs : List Triple) (ns : String) :
    jsonField (encode_graphcol trs ns) "version" = some (.num 1) ∧
    jsonField (encode_graphcol trs ns) "namespace" = some (.str ns) ∧
    jsonField (encode_graphcol trs ns) "triples" =
      some (.arr (trs.map tripleJson)) ∧
    (∀ trs' : List Triple, trs.map tripleJson = trs'.map tripleJson → trs = trs') ∧
    (∀ (trs' : List Triple) (ns' : String), trs = trs' → ns = ns' →
      render (encode_graphcol trs ns) = render (encode_graphcol trs' ns')) := by
  refine ⟨rfl, rfl, rfl, ?_, ?_⟩
  · intro trs' hmap
    have h1 : (trs.map tripleJson).mapM decodeTriple = some trs :=
      mapM_decodeTriple trs
    rw [hmap, mapM_decodeTriple] at h1
    exact (Option.some_inj.mp h1).symm
  · intro trs' ns' h1 h2
    rw [h1, h2]

theorem C7_payload_shape_witness :
    jsonField (encode_graphcol [q42Triple] "https://wikidata.org/") "version" =
      some (.num 1) :=
  (C7_payload_shape [q42Triple] "https://wikidata.org/").1

/-! ## Upload outcomes do not influence the accumulator (claims C4, C10) -/

/-- Forget the upload verdicts recorded in the ghost chunks; every other
component of the state is untouched. -/
def eraseUpload (st : AccState) : AccState :=
  { st with chunks := st.chunks.map (fun c => { c with uploaded := true }) }

theorem eraseUpload_flush (name : String) (up : Nat → Bool) (st : AccState) :
    eraseUpload (flush_chunk name up st) =
      flush_chunk name (fun _ => true) (eraseUpload st) := by
  by_cases h : st.triples = []
  · rw [flush_chunk_empty h, @flush_chunk_empty name (fun _ => true) (eraseUpload st) h]
  · rw [flush_chunk_nonempty h,
      @flush_chunk_nonempty name (fun _ => true) (eraseUpload st) h]
    simp [eraseUpload]

theorem eraseUpload_add (C : Nat) (name : String) (up : Nat → Bool)
    (st : AccState) (tr : Triple) :
    eraseUpload (add_triple C name up st tr) =
      add_triple C name (fun _ => true) (eraseUpload st) tr := by
  by_cases h : C ≤ st.triples.length + 1
  · rw [add_triple_flush h, @add_triple_flush C name (fun _ => true) (eraseUpload st) tr h]
    simp [eraseUpload]
  · rw [add_triple_no_flush h,
      @add_triple_no_flush C name (fun _ => true) (eraseUpload st) tr h]
    rfl

theorem eraseUpload_foldl (C : Nat) (name : String) (up : Nat → Bool)
    (trs : List Triple) :
    ∀ st : AccState,
      eraseUpload (trs.foldl (add_triple C name up) st) =
        trs.foldl (add_triple C name (fun _ => true)) (eraseUpload st) := by
  induction trs with
  | nil => intro st; rfl
  | cons t ts ih =>
    intro st
    rw [List.foldl_cons, List.foldl_cons, ih, eraseUpload_add]

theorem eraseUpload_run (C : Nat) (name : String) (up : Nat → Bool)
    (trs : List Triple) :
    eraseUpload (run_accumulator C name up trs) =
      run_accumulator C name (fun _ => true) trs := by
  rw [run_accumulator, run_accumulator, eraseUpload_flush, eraseUpload_foldl]
  rfl

/-! ## Manifest statistics (claim C3) -/

/-- C3: after a run of the accumulator over `L` input triples completes,
the manifest's `stats.totalChunks` equals the number of chunk files
produced, `stats.totalTriples` equals the sum of triple counts across
all chunks, and that sum equals `L` (here under the claim's
no-upload-failure hypothesis; the counters do not depend on it). -/
theorem C3_manifest_totals (C : Nat) (name : String) (up : Nat → Bool)
    (now : Nat) (rand : Fin 16 → Fin 32) (ts : Nat) (createdAt : String)
    (edges : List (SOVal × SOVal × SOVal)) (labels : List (SOVal × String))
    (hC : 0 < C) (_hup : ∀ i, up i = true) :
    (load_subset C name up now rand ts createdAt edges labels).manifest.stats.totalChunks =
      (load_subset C name up now rand ts createdAt edges labels).state.chunks.length ∧
    (load_subset C name up now rand ts createdAt edges labels).manifest.stats.totalTriples =
      ((load_subset C name up now rand ts createdAt edges labels).state.chunks.map
        (fun c => c.triples.length)).sum ∧
    (load_subset C name up now rand ts createdAt edges labels).manifest.stats.totalTriples =
      edges.length + labels.length := by
  have h := run_accumulator_spec (C := C) name up
    (edges.map (edgeTriple ts (generate_ulid now rand)) ++
      labels.map (labelTriple ts (generate_ulid now rand))) hC
  refine ⟨h.idx, ?_, ?_⟩
  · show (run_accumulator C name up
      (edges.map (edgeTriple ts (generate_ulid now rand)) ++
        labels.map (labelTriple ts (generate_ulid now rand)))).total_triples = _
    rw [h.total, ← h.content, List.length_flatten, List.map_map]
    rfl
  · show (run_accumulator C name up
      (edges.map (edgeTriple ts (generate_ulid now rand)) ++
        labels.map (labelTriple ts (generate_ulid now rand)))).total_triples = _
    rw [h.total, List.length_append, List.length_map, List.length_map]

theorem C3_manifest_totals_witness : (0 < 250000 ∧ (∀ i : Nat, (fun _ => true) i = true)) ∧
    ((load_subset 250000 "humans" (fun _ => true) 0 (fun _ => 0) 5 "c"
        [(SOVal.num 1, SOVal.num 2, SOVal.num 3)]
        [(SOVal.num 1, "Douglas Adams")]).manifest.stats.totalChunks =
      (load_subset 250000 "humans" (fun _ => true) 0 (fun _ => 0) 5 "c"
        [(SOVal.num 1, SOVal.num 2, SOVal.num 3)]
        [(SOVal.num 1, "Douglas Adams")]).state.chunks.length ∧
    (load_subset 250000 "humans" (fun _ => true) 0 (fun _ => 0) 5 "c"
        [(SOVal.num 1, SOVal.num 2, SOVal.num 3)]
        [(SOVal.num 1, "Douglas Adams")]).manifest.stats.totalTriples =
      ((load_subset 250000 "humans" (fun _ => true) 0 (fun _ => 0) 5 "c"
        [(SOVal.num 1, SOVal.num 2, SOVal.num 3)]
        [(SOVal.num 1, "Douglas Adams")]).state.chunks.map
          (fun c => c.triples.length)).sum ∧
    (load_subset 250000 "humans" (fun _ => true) 0 (fun _ => 0) 5 "c"
        [(SOVal.num 1, SOVal.num 2, SOVal.num 3)]
        [(SOVal.num 1, "Douglas Adams")]).manifest.stats.totalTriples =
      [(SOVal.num 1, SOVal.num 2, SOVal.num 3)].length +
        [((SOVal.num 1 : SOVal), "Douglas Adams")].length) :=
  ⟨⟨by decide, fun _ => rfl⟩,
   C3_manifest_totals 250000 "humans" (fun _ => true) 0 (fun _ => 0) 5 "c"
     [(SOVal.num 1, SOVal.num 2, SOVal.num 3)]
     [(SOVal.num 1, "Douglas Adams")] (by decide) (fun _ => rfl)⟩

/-! ## One transaction id and timestamp per run (claim C8) -/

/-- C8: `load_subset` generates exactly one transaction identifier per
run — a 26-character string — and every triple of every chunk the run
produces, edge triples and label triples alike, carries that identifier
in its `tx` field and the run's single timestamp in its `ts` field. -/
theorem C8_single_transaction (C : Nat) (name : String) (up : Nat → Bool)
    (now : Nat) (rand : Fin 16 → Fin 32) (ts : Nat) (createdAt : String)
    (edges : List (SOVal × SOVal × SOVal)) (labels : List (SOVal × String))
    (hC : 0 < C) :
    (generate_ulid now rand).length = 26 ∧
    ∀ c ∈ (load_subset C name up now rand ts createdAt edges labels).state.chunks,
      ∀ tr ∈ c.triples, tr.tx = generate_ulid now rand ∧ tr.ts = ts := by
  refine ⟨generate_ulid_length now rand, ?_⟩
  intro c hc tr htr
  have h := run_accumulator_spec (C := C) name up
    (edges.map (edgeTriple ts (generate_ulid now rand)) ++
      labels.map (labelTriple ts (generate_ulid now rand))) hC
  have hc' : c ∈ (run_accumulator C name up
      (edges.map (edgeTriple ts (generate_ulid now rand)) ++
        labels.map (labelTriple ts (generate_ulid now rand)))).chunks := hc
  have hmem : tr ∈ edges.map (edgeTriple ts (generate_ulid now rand)) ++
      labels.map (labelTriple ts (generate_ulid now rand)) := by
    rw [← h.content]
    exact List.mem_flatten.mpr ⟨c.triples, List.mem_map_of_mem Chunk.triples hc', htr⟩
  rcases List.mem_append.mp hmem with hm | hm
  · obtain ⟨e, _, rfl⟩ := List.mem_map.mp hm
    exact ⟨rfl, rfl⟩
  · obtain ⟨p, _, rfl⟩ := List.mem_map.mp hm
    exact ⟨rfl, rfl⟩

theorem C8_single_transaction_witness : 0 < 250000 ∧
    ((generate_ulid 1700000000000 (fun _ => 7)).length = 26 ∧
    ∀ c ∈ (load_subset 250000 "films" (fun _ => true) 1700000000000 (fun _ => 7)
        1700000000001 "c" [(SOVal.num 1, SOVal.num 2, SOVal.num 3)]
        [(SOVal.num 1, "Douglas Adams")]).state.chunks,
      ∀ tr ∈ c.triples,
        tr.tx = generate_ulid 1700000000000 (fun _ => 7) ∧ tr.ts = 1700000000001) :=
  ⟨by decide,
   C8_single_transaction 250000 "films" (fun _ => true) 1700000000000 (fun _ => 7)
     1700000000001 "c" [(SOVal.num 1, SOVal.num 2, SOVal.num 3)]
     [(SOVal.num 1, "Douglas Adams")] (by decide)⟩

/-! ## Best-effort upload policy (claim C4) -/

/-- C4 counterexample: run two triples with chunk size 1 under an upload
sink that fails exactly for chunk index 1.  The run produces two chunks,
only one of which uploads successfully, yet the final manifest's
`stats.totalChunks` is 2, not 1: `chunk_index` at source line 109 is
incremented whether or not the upload succeeded (`upload_to_r2` at
lines 58-65 never checks the subprocess result), so `totalChunks` does
not reflect only the successfully uploaded chunks. -/
theorem C4_counterexample :
    (load_subset 1 "humans" (fun i => !(i == 1)) 0 (fun _ => 0) 0 "c"
      [(SOVal.num 1, SOVal.num 2, SOVal.num 3), (SOVal.num 1, SOVal.num 2, SOVal.num 4)]
      []).manifest.stats.totalChunks = 2 ∧
    ((load_subset 1 "humans" (fun i => !(i == 1)) 0 (fun _ => 0) 0 "c"
      [(SOVal.num 1, SOVal.num 2, SOVal.num 3), (SOVal.num 1, SOVal.num 2, SOVal.num 4)]
      []).state.chunks.filter (fun c => c.uploaded)).length = 1 ∧
    (2 : Nat) ≠ 1 :=
  ⟨rfl, rfl, by decide⟩

/-- C4 (amended): if the upload of some chunk fails, the run continues
under the best-effort policy — upload outcomes influence neither
control flow nor any counter — but the final manifest's
`stats.totalChunks` counts all flushed chunks, the failed one included:
the whole manifest is identical to the one an always-succeeding upload
sink would yield. -/
theorem C4_best_effort (C : Nat) (name : String) (up : Nat → Bool)
    (now : Nat) (rand : Fin 16 → Fin 32) (ts : Nat) (createdAt : String)
    (edges : List (SOVal × SOVal × SOVal)) (labels : List (SOVal × String))
    (hC : 0 < C) :
    (load_subset C name up now rand ts createdAt edges labels).manifest.stats.totalChunks =
      (load_subset C name up now rand ts createdAt edges labels).state.chunks.length ∧
    (load_subset C name up now rand ts createdAt edges labels).manifest =
      (load_subset C name (fun _ => true) now rand ts createdAt edges labels).manifest := by
  have h := run_accumulator_spec (C := C) name up
    (edges.map (edgeTriple ts (generate_ulid now rand)) ++
      labels.map (labelTriple ts (generate_ulid now rand))) hC
  refine ⟨h.idx, ?_⟩
  simp only [load_subset]
  rw [← eraseUpload_run C name up
    (edges.map (edgeTriple ts (generate_ulid now rand)) ++
      labels.map (labelTriple ts (generate_ulid now rand)))]
  rfl

theorem C4_best_effort_witness : 0 < 1 ∧
    ((load_subset 1 "humans" (fun i => !(i == 1)) 0 (fun _ => 0) 0 "c"
        [(SOVal.num 1, SOVal.num 2, SOVal.num 3), (SOVal.num 1, SOVal.num 2, SOVal.num 4)]
        []).manifest.stats.totalChunks =
      (load_subset 1 "humans" (fun i => !(i == 1)) 0 (fun _ => 0) 0 "c"
        [(SOVal.num 1, SOVal.num 2, SOVal.num 3), (SOVal.num 1, SOVal.num 2, SOVal.num 4)]
        []).state.chunks.length ∧
    (load_subset 1 "humans" (fun i => !(i == 1)) 0 (fun _ => 0) 0 "c"
        [(SOVal.num 1, SOVal.num 2, SOVal.num 3), (SOVal.num 1, SOVal.num 2, SOVal.num 4)]
        []).manifest =
      (load_subset 1 "humans" (fun _ => true) 0 (fun _ => 0) 0 "c"
        [(SOVal.num 1, SOVal.num 2, SOVal.num 3), (SOVal.num 1, SOVal.num 2, SOVal.num 4)]
        []).manifest) :=
  ⟨by decide,
   C4_best_effort 1 "humans" (fun i => !(i == 1)) 0 (fun _ => 0) 0 "c"
     [(SOVal.num 1, SOVal.num 2, SOVal.num 3), (SOVal.num 1, SOVal.num 2, SOVal.num 4)]
     [] (by decide)⟩

/-! ## Byte accounting (claim C10) -/

/-- C10: the manifest's `stats.totalSizeBytes` equals the sum of the
byte lengths of the encoded payloads of all flushed chunks — each
chunk's recorded size is the length of `render (encode_graphcol ...)`
for exactly its triples, accumulated at encode time (source line 103,
before the upload attempt) — and the total is independent of the
upload oracle's outcomes. -/
theorem C10_size_accounting (C : Nat) (name : String) (up : Nat → Bool)
    (now : Nat) (rand : Fin 16 → Fin 32) (ts : Nat) (createdAt : String)
    (edges : List (SOVal × SOVal × SOVal)) (labels : List (SOVal × String))
    (hC : 0 < C) :
    (load_subset C name up now rand ts createdAt edges labels).manifest.stats.totalSizeBytes =
      ((load_subset C name up now rand ts createdAt edges labels).state.chunks.map
        Chunk.size).sum ∧
    (∀ c ∈ (load_subset C name up now rand ts createdAt edges labels).state.chunks,
      c.size = (render (encode_graphcol c.triples NAMESPACE)).length) ∧
    (load_subset C name up now rand ts createdAt edges labels).manifest.stats.totalSizeBytes =
      (load_subset C name (fun _ => true) now rand ts createdAt edges labels).manifest.stats.totalSizeBytes := by
  have h := run_accumulator_spec (C := C) name up
    (edges.map (edgeTriple ts (generate_ulid now rand)) ++
      labels.map (labelTriple ts (generate_ulid now rand))) hC
  refine ⟨h.bytes, fun c hc => (h.meta c hc).2.1, ?_⟩
  show (run_accumulator C name up
      (edges.map (edgeTriple ts (generate_ulid now rand)) ++
        labels.map (labelTriple ts (generate_ulid now rand)))).total_bytes =
    (run_accumulator C name (fun _ => true)
      (edges.map (edgeTriple ts (generate_ulid now rand)) ++
        labels.map (labelTriple ts (generate_ulid now rand)))).total_bytes
  rw [← eraseUpload_run C name up
    (edges.map (edgeTriple ts (generate_ulid now rand)) ++
      labels.map (labelTriple ts (generate_ulid now rand)))]
  rfl

theorem C10_size_accounting_witness : 0 < 1 ∧
    ((load_subset 1 "humans" (fun i => !(i == 1)) 0 (fun _ => 0) 0 "c"
        [(SOVal.num 1, SOVal.num 2, SOVal.num 3), (SOVal.num 1, SOVal.num 2, SOVal.num 4)]
        []).manifest.stats.totalSizeBytes =
      ((load_subset 1 "humans" (fun i => !(i == 1)) 0 (fun _ => 0) 0 "c"
        [(SOVal.num 1, SOVal.num 2, SOVal.num 3), (SOVal.num 1, SOVal.num 2, SOVal.num 4)]
        []).state.chunks.map Chunk.size).sum ∧
    (∀ c ∈ (load_subset 1 "humans" (fun i => !(i == 1)) 0 (fun _ => 0) 0 "c"
        [(SOVal.num 1, SOVal.num 2, SOVal.num 3), (SOVal.num 1, SOVal.num 2, SOVal.num 4)]
        []).state.chunks,
      c.size = (render (encode_graphcol c.triples NAMESPACE)).length) ∧
    (load_subset 1 "humans" (fun i => !(i == 1)) 0 (fun _ => 0) 0 "c"
        [(SOVal.num 1, SOVal.num 2, SOVal.num 3), (SOVal.num 1, SOVal.num 2, SOVal.num 4)]
        []).manifest.stats.totalSizeBytes =
      (load_subset 1 "humans" (fun _ => true) 0 (fun _ => 0) 0 "c"
        [(SOVal.num 1, SOVal.num 2, SOVal.num 3), (SOVal.num 1, SOVal.num 2, SOVal.num 4)]
        []).manifest.stats.totalSizeBytes) :=
  ⟨by decide,
   C10_size_accounting 1 "humans" (fun i => !(i == 1)) 0 (fun _ => 0) 0 "c"
     [(SOVal.num 1, SOVal.num 2, SOVal.num 3), (SOVal.num 1, SOVal.num 2, SOVal.num 4)]
     [] (by decide)⟩

/-! ## Per-dataset failure isolation (claim C9) -/

theorem foldl_addStats (l : List (String × DatasetStats)) :
    ∀ t : DatasetStats, l.foldl addStats t =
      { triples := t.triples + (l.map (fun p => p.2.triples)).sum
        chunks := t.chunks + (l.map (fun p => p.2.chunks)).sum
        bytes := t.bytes + (l.map (fun p => p.2.bytes)).sum } := by
  induction l with
  | nil => intro t; simp
  | cons p l ih =>
    intro t
    rw [List.foldl_cons, ih]
    simp [addStats, Nat.add_assoc]

theorem sum_proj_filterMap (proj : DatasetStats → Nat)
    (f : String → Option DatasetStats) :
    ∀ l : List String,
      ((l.filterMap (fun s => (f s).map (fun st => (s, st)))).map
        (fun p => proj p.2)).sum =
      (l.map (fun s => ((f s).map proj).getD 0)).sum := by
  intro l
  induction l with
  | nil => rfl
  | cons s l ih =>
    rw [List.filterMap_cons, List.map_cons]
    cases hfs : f s with
    | none => simp only [hfs, Option.map_none', List.sum_cons, Option.getD_none, Nat.zero_add, ih]
    | some v =>
      simp only [hfs, Option.map_some', List.map_cons, List.sum_cons,
        Option.getD_some, ih]

/-- C9: in a multi-dataset run, a dataset that raises never aborts the
processing of the others — every dataset whose load succeeds appears
with its stats in the results, whatever the other datasets did — and a
dataset that failed entirely contributes zero triples, chunks and bytes
to the grand total of the final summary (the totals sum `getD 0` over
per-dataset outcomes). -/
theorem C9_dataset_isolation (f : String → Option DatasetStats) :
    (∀ s ∈ SUBSETS, ∀ v : DatasetStats, f s = some v → (s, v) ∈ (main_all f).1) ∧
    (main_all f).2.triples =
      (SUBSETS.map (fun s => ((f s).map DatasetStats.triples).getD 0)).sum ∧
    (main_all f).2.chunks =
      (SUBSETS.map (fun s => ((f s).map DatasetStats.chunks).getD 0)).sum ∧
    (main_all f).2.bytes =
      (SUBSETS.map (fun s => ((f s).map DatasetStats.bytes).getD 0)).sum := by
  refine ⟨?_, ?_, ?_, ?_⟩
  · intro s hs v hv
    show (s, v) ∈ SUBSETS.filterMap (fun s => (f s).map (fun st => (s, st)))
    exact List.mem_filterMap.mpr ⟨s, hs, by rw [hv]; rfl⟩
  · show ((SUBSETS.filterMap (fun s => (f s).map (fun st => (s, st)))).foldl
      addStats ⟨0, 0, 0⟩).triples = _
    rw [foldl_addStats]
    show 0 + ((SUBSETS.filterMap (fun s => (f s).map (fun st => (s, st)))).map
      (fun p => p.2.triples)).sum = _
    rw [Nat.zero_add]
    exact sum_proj_filterMap DatasetStats.triples f SUBSETS
  · show ((SUBSETS.filterMap (fun s => (f s).map (fun st => (s, st)))).foldl
      addStats ⟨0, 0, 0⟩).chunks = _
    rw [foldl_addStats]
    show 0 + ((SUBSETS.filterMap (fun s => (f s).map (fun st => (s, st)))).map
      (fun p => p.2.chunks)).sum = _
    rw [Nat.zero_add]
    exact sum_proj_filterMap DatasetStats.chunks f SUBSETS
  · show ((SUBSETS.filterMap (fun s => (f s).map (fun st => (s, st)))).foldl
      addStats ⟨0, 0, 0⟩).bytes = _
    rw [foldl_addStats]
    show 0 + ((SUBSETS.filterMap (fun s => (f s).map (fun st => (s, st)))).map
      (fun p => p.2.bytes)).sum = _
    rw [Nat.zero_add]
    exact sum_proj_filterMap DatasetStats.bytes f SUBSETS

theorem C9_dataset_isolation_witness :
    (main_all (fun s => if s = "films" then none else some ⟨10, 1, 100⟩)).2.triples =
      (SUBSETS.map (fun s =>
        (((fun s => if s = "films" then none else some (⟨10, 1, 100⟩ : DatasetStats)) s).map
          DatasetStats.triples).getD 0)).sum :=
  (C9_dataset_isolation (fun s => if s = "films" then none else some ⟨10, 1, 100⟩)).2.1

end GraphDB
